import Mathlib

/-!
A shallow embedding of `logger.go` (package `logger`): a minimal structured
JSON logger.  Go reference semantics matter for the claims about
immutability of field derivation, so `Fields` maps and `Logger` records live
in an explicit store (`State`) and the Go pointer values `*Logger` /
`map[string]interface{}` are modelled as indices into that store.
Machine integers (`LogLevel int`) are modelled as `Int`.
-/

namespace GoLogger

set_option autoImplicit false

/-- Braces as characters, written via code points. -/
def lbrace : Char := Char.ofNat 123

def rbrace : Char := Char.ofNat 125

def lbraceS : String := String.singleton lbrace

def rbraceS : String := String.singleton rbrace

/-- A Go `interface{}` value as seen by `encoding/json`: either a value that
serializes (string, integer, boolean), or a value `json.Marshal` rejects
(func, chan, cyclic structure, ...), abstracted by the text of the error
`json.Marshal` would return for it. -/
inductive Value where
  | str (s : String)
  | int (n : Int)
  | bool (b : Bool)
  | unserializable (errText : String)
  deriving DecidableEq, Repr

/-- `true` unless `json.Marshal` would fail on the value. -/
def Value.serializable : Value → Bool
  | .unserializable _ => false
  | _ => true

/-- Go `Fields = map[string]interface{}`, modelled extensionally as an
association list; lookup is last-write-wins. -/
abbrev FieldsMap := List (String × Value)

/-- Last-write-wins lookup, mirroring `m[k] = v` overwriting earlier writes. -/
def fLookup : FieldsMap → String → Option Value
  | [], _ => none
  | p :: rest, k =>
    match fLookup rest k with
    | some v => some v
    | none => if p.1 = k then some p.2 else none

/-- `m[k] = v`: remove any earlier binding of `k`, append the new one. -/
def fInsert (m : FieldsMap) (k : String) (v : Value) : FieldsMap :=
  (m : List (String × Value)).filter (fun p => decide (p.1 ≠ k)) ++ [(k, v)]

/-- The key set of a field map (first occurrences, duplicates dropped). -/
def fKeys (m : FieldsMap) : List String :=
  ((m : List (String × Value)).map Prod.fst).dedup

/-- `for k, v := range fields do dst[k] = v` (Go map range order is
irrelevant here because `fInsert` is extensional). -/
def fMerge (dst : FieldsMap) (src : FieldsMap) : FieldsMap :=
  (src : List (String × Value)).foldl (fun m p => fInsert m p.1 p.2) dst

/-- One hexadecimal digit, lowercase as Go's encoder emits it. -/
def hexDigit (n : Nat) : String :=
  if n < 10 then String.singleton (Char.ofNat (48 + n))
  else String.singleton (Char.ofNat (87 + n))

/-- Escaping of one character inside a JSON string, as Go
`encoding/json` does with its default HTML escaping. -/
def escapeChar (c : Char) : String :=
  if c = '"' then "\\\""
  else if c = '\\' then "\\\\"
  else if c = '\n' then "\\n"
  else if c = '\r' then "\\r"
  else if c = '\t' then "\\t"
  else if c = '<' then "\\u003c"
  else if c = '>' then "\\u003e"
  else if c = '&' then "\\u0026"
  else if c.toNat < 32 then "\\u00" ++ hexDigit (c.toNat / 16) ++ hexDigit (c.toNat % 16)
  else if c.toNat = 8232 then "\\u2028"
  else if c.toNat = 8233 then "\\u2029"
  else String.singleton c

def escapeString (s : String) : String :=
  String.join (s.data.map escapeChar)

/-- A JSON string literal: `"` + escaped contents + `"`. -/
def quoteJson (s : String) : String :=
  "\"" ++ escapeString s ++ "\""

/-- Encoding of a single value, or the marshalling error it raises. -/
def encodeValue : Value → Except String String
  | .str s => .ok (quoteJson s)
  | .int n => .ok (toString n)
  | .bool b => .ok (if b then "true" else "false")
  | .unserializable e => .error e

/-- Total rendering of a value (only used where serializability is known). -/
def encodeValueD (v : Value) : String :=
  match encodeValue v with
  | .ok s => s
  | .error _ => ""

/-- Code-point lexicographic comparison (equivalent to Go's byte-wise
UTF-8 comparison, since UTF-8 preserves code-point order). -/
def charListLE : List Char → List Char → Bool
  | [], _ => true
  | _ :: _, [] => false
  | a :: as, b :: bs =>
    if a.toNat < b.toNat then true
    else if b.toNat < a.toNat then false
    else charListLE as bs

def strLE (a b : String) : Bool :=
  charListLE a.data b.data

/-- Insertion sort on strings: Go's `json.Marshal` emits map keys in sorted
byte order. -/
def insertSorted (x : String) : List String → List String
  | [] => [x]
  | y :: ys => if strLE x y then x :: y :: ys else y :: insertSorted x ys

def sortStrings : List String → List String
  | [] => []
  | x :: xs => insertSorted x (sortStrings xs)

/-- The map's bindings in the order `json.Marshal` visits them: distinct
keys, sorted, each paired with its (last-written) value. -/
def sortedPairs (m : FieldsMap) : List (String × Value) :=
  (sortStrings (fKeys m)).map (fun k => (k, (fLookup m k).getD (.str "")))

/-- `"k":v` for one binding. -/
def encodePair (p : String × Value) : Except String String :=
  match encodeValue p.2 with
  | .ok s => .ok (quoteJson p.1 ++ ":" ++ s)
  | .error e => .error e

/-- Encode bindings left to right, stopping at the first error, as
`json.Marshal` does. -/
def encodePairs : List (String × Value) → Except String (List String)
  | [] => .ok []
  | p :: rest =>
    match encodePair p with
    | .error e => .error e
    | .ok s =>
      match encodePairs rest with
      | .error e => .error e
      | .ok ss => .ok (s :: ss)

/-- Total rendering of a binding list as a JSON object (used to state what
a successful marshal produces). -/
def renderObj (l : List (String × Value)) : String :=
  lbraceS ++ String.intercalate "," (l.map (fun p => quoteJson p.1 ++ ":" ++ encodeValueD p.2)) ++ rbraceS

/-- `json.Marshal` on a `map[string]interface{}`: sorted keys, compact
separators, first offending value reported as the error. -/
def jsonMarshal (m : FieldsMap) : Except String String :=
  match encodePairs (sortedPairs m) with
  | .ok ss => .ok (lbraceS ++ String.intercalate "," ss ++ rbraceS)
  | .error e => .error e

/-- A wall-clock instant, as much of it as the embedded layouts consume. -/
structure GoTime where
  year : Nat
  month : Nat
  day : Nat
  hour : Nat
  minute : Nat
  second : Nat
  deriving DecidableEq, Repr

def pad2 (n : Nat) : String :=
  if n < 10 then "0" ++ toString n else toString n

def pad4 (n : Nat) : String :=
  if n < 10 then "000" ++ toString n
  else if n < 100 then "00" ++ toString n
  else if n < 1000 then "0" ++ toString n
  else toString n

/-- Go's `time.Format` reference-layout scanner, for the standard tokens
the logger's default layout uses (`2006`, `01`, `02`, `15`, `04`, `05`);
any other character is copied verbatim.  Models `time.Time.Format` from the
Go standard library, which is outside this repository. -/
def goFormatChars : List Char → GoTime → String
  | '2' :: '0' :: '0' :: '6' :: rest, t => pad4 t.year ++ goFormatChars rest t
  | '0' :: '1' :: rest, t => pad2 t.month ++ goFormatChars rest t
  | '0' :: '2' :: rest, t => pad2 t.day ++ goFormatChars rest t
  | '1' :: '5' :: rest, t => pad2 t.hour ++ goFormatChars rest t
  | '0' :: '4' :: rest, t => pad2 t.minute ++ goFormatChars rest t
  | '0' :: '5' :: rest, t => pad2 t.second ++ goFormatChars rest t
  | c :: rest, t => String.singleton c ++ goFormatChars rest t
  | [], _ => ""

def goFormat (layout : String) (t : GoTime) : String :=
  goFormatChars layout.data t

/-- `LogLevel` constants (`LogLevel int`, iota). -/
def LevelDebug : Int := 0

def LevelInfo : Int := 1

def LevelWarn : Int := 2

def LevelError : Int := 3

def LevelFatal : Int := 4

def LevelPanic : Int := 5

/-- The `levelNames` map. -/
def levelNames (l : Int) : Option String :=
  if l = LevelDebug then some "DEBUG"
  else if l = LevelInfo then some "INFO"
  else if l = LevelWarn then some "WARN"
  else if l = LevelError then some "ERROR"
  else if l = LevelFatal then some "FATAL"
  else if l = LevelPanic then some "PANIC"
  else none

/-- `func (l LogLevel) String() string`. -/
def levelString (l : Int) : String :=
  match levelNames l with
  | some name => name
  | none => "UNKNOWN"

/-- The `Logger` struct.  `fields` and `output` are store indices standing
for the Go map reference and the `io.Writer` identity; the `sync.Mutex` and
the wrapped `*log.Logger` (unused on the emission path) are not modelled. -/
structure LoggerRec where
  level : Int
  fields : Nat
  output : Nat
  timeFormat : String
  deriving DecidableEq, Repr

/-- The store: allocated `Logger` records, allocated `Fields` maps, and the
byte contents written so far to each sink. -/
structure State where
  loggers : List LoggerRec
  maps : List FieldsMap
  sinks : List String
  deriving DecidableEq, Repr

def State.getLogger (σ : State) (r : Nat) : LoggerRec :=
  (σ.loggers[r]?).getD ⟨LevelInfo, 0, 0, ""⟩

def State.getMap (σ : State) (i : Nat) : FieldsMap :=
  (σ.maps[i]?).getD []

def State.getSink (σ : State) (i : Nat) : String :=
  (σ.sinks[i]?).getD ""

/-- The field map of the logger at `r`. -/
def State.fieldsOf (σ : State) (r : Nat) : FieldsMap :=
  σ.getMap (σ.getLogger r).fields

def State.setLoggerRec (σ : State) (r : Nat) (L : LoggerRec) : State :=
  { σ with loggers := σ.loggers.set r L }

def State.setMap (σ : State) (i : Nat) (m : FieldsMap) : State :=
  { σ with maps := σ.maps.set i m }

/-- Append bytes to the sink at index `i` (`fmt.Fprintln` adds `"\n"`). -/
def State.write (σ : State) (i : Nat) (s : String) : State :=
  { σ with sinks := σ.sinks.set i (σ.getSink i ++ s) }

/-- The logger record at `r` exists and its references are allocated. -/
def State.okRef (σ : State) (r : Nat) : Prop :=
  r < σ.loggers.length ∧ (σ.getLogger r).fields < σ.maps.length ∧
    (σ.getLogger r).output < σ.sinks.length

instance (σ : State) (r : Nat) : Decidable (σ.okRef r) := by
  unfold State.okRef; infer_instance

/-- `New(output)`: allocates an empty field map and a logger with threshold
`LevelInfo` and the default timestamp layout; returns the new reference. -/
def New (σ : State) (out : Nat) : State × Nat :=
  let mref := σ.maps.length
  let lref := σ.loggers.length
  ({ σ with
      maps := σ.maps ++ [[]],
      loggers := σ.loggers ++ [⟨LevelInfo, mref, out, "2006-01-02 15:04:05"⟩] },
    lref)

/-- `SetLevel`: mutates the record in place, returns the same reference. -/
def SetLevel (σ : State) (r : Nat) (level : Int) : State × Nat :=
  (σ.setLoggerRec r { σ.getLogger r with level := level }, r)

/-- `SetOutput`: mutates the record in place, returns the same reference. -/
def SetOutput (σ : State) (r : Nat) (out : Nat) : State × Nat :=
  (σ.setLoggerRec r { σ.getLogger r with output := out }, r)

/-- `SetTimeFormat`: mutates the record in place, returns the same
reference. -/
def SetTimeFormat (σ : State) (r : Nat) (format : String) : State × Nat :=
  (σ.setLoggerRec r { σ.getLogger r with timeFormat := format }, r)

/-- `clone`: copies the field map into a fresh allocation and allocates a
fresh logger record sharing level, output and format. -/
def clone (σ : State) (r : Nat) : State × Nat :=
  let L := σ.getLogger r
  let mref := σ.maps.length
  let lref := σ.loggers.length
  ({ σ with
      maps := σ.maps ++ [σ.getMap L.fields],
      loggers := σ.loggers ++ [{ L with fields := mref }] },
    lref)

/-- `AddField(key, value)`: clone, then write one key into the clone's map. -/
def AddField (σ : State) (r : Nat) (key : String) (value : Value) : State × Nat :=
  let res := clone σ r
  let σ1 := res.1
  let nr := res.2
  let nf := (σ1.getLogger nr).fields
  (σ1.setMap nf (fInsert (σ1.getMap nf) key value), nr)

/-- `AddFields(fields)`: clone, then write every key of the argument into
the clone's map. -/
def AddFields (σ : State) (r : Nat) (fields : FieldsMap) : State × Nat :=
  let res := clone σ r
  let σ1 := res.1
  let nr := res.2
  let nf := (σ1.getLogger nr).fields
  (σ1.setMap nf (fMerge (σ1.getMap nf) fields), nr)

/-- The entry map `log` builds: the three reserved keys, then the logger's
fields overlaid (`entry[k] = v`, last-write-wins). -/
def entryOf (σ : State) (r : Nat) (level : Int) (msg : String) (now : GoTime) : FieldsMap :=
  let L := σ.getLogger r
  fMerge
    [("level", .str (levelString level)),
      ("message", .str msg),
      ("time", .str (goFormat L.timeFormat now))]
    (σ.getMap L.fields)

/-- The hand-built fallback line (the `fmt.Sprintf` template in `log`),
with the error text and timestamp interpolated verbatim. -/
def fallbackLine (errText : String) (timeText : String) : String :=
  lbraceS ++ "\"level\": \"ERROR\",\"message\": \"Failed to marshal log entry\",\"error\": \""
    ++ errText ++ "\",\"time\": \"" ++ timeText ++ "\"" ++ rbraceS

/-- `func (l *Logger) log(level LogLevel, msg string)`.  `time.Now()` is
the parameter `now`; both renderings of the timestamp use it. -/
def log (σ : State) (r : Nat) (level : Int) (msg : String) (now : GoTime) : State :=
  let L := σ.getLogger r
  if level < L.level then σ
  else
    match jsonMarshal (entryOf σ r level msg now) with
    | .ok jsonData => σ.write L.output (jsonData ++ "\n")
    | .error e => σ.write L.output (fallbackLine e (goFormat L.timeFormat now) ++ "\n")

/-- The control-flow effect a public emission call ends with. -/
inductive Outcome where
  | normal
  | exited (code : Nat)
  | panicked (msg : String)
  deriving DecidableEq, Repr

def Debug (σ : State) (r : Nat) (msg : String) (now : GoTime) : State :=
  log σ r LevelDebug msg now

def Info (σ : State) (r : Nat) (msg : String) (now : GoTime) : State :=
  log σ r LevelInfo msg now

def Warn (σ : State) (r : Nat) (msg : String) (now : GoTime) : State :=
  log σ r LevelWarn msg now

def Error (σ : State) (r : Nat) (msg : String) (now : GoTime) : State :=
  log σ r LevelError msg now

/-- `Fatal`: log at `LevelFatal`, then `os.Exit(1)`. -/
def Fatal (σ : State) (r : Nat) (msg : String) (now : GoTime) : State × Outcome :=
  (log σ r LevelFatal msg now, .exited 1)

/-- `Panic`: log at `LevelPanic`, then `panic(msg)`. -/
def Panic (σ : State) (r : Nat) (msg : String) (now : GoTime) : State × Outcome :=
  (log σ r LevelPanic msg now, .panicked msg)

/-- `var defaultLogger = New(os.Stdout)`: the initial store owns one sink
(standard output, index `0`) and the logger allocated by `New` on it. -/
def stdoutRef : Nat := 0

def initState : State := ⟨[], [], [""]⟩

def startupState : State := (New initState stdoutRef).1

/-- The reference `defaultLogger` holds for the whole process lifetime. -/
def defaultLogger : Nat := (New initState stdoutRef).2

/-- Package-level forwarders. -/
def pkgSetLevel (σ : State) (level : Int) : State × Nat :=
  SetLevel σ defaultLogger level

def pkgSetOutput (σ : State) (out : Nat) : State × Nat :=
  SetOutput σ defaultLogger out

def pkgSetTimeFormat (σ : State) (format : String) : State × Nat :=
  SetTimeFormat σ defaultLogger format

def pkgAddField (σ : State) (key : String) (value : Value) : State × Nat :=
  AddField σ defaultLogger key value

def pkgAddFields (σ : State) (fields : FieldsMap) : State × Nat :=
  AddFields σ defaultLogger fields

def pkgDebug (σ : State) (msg : String) (now : GoTime) : State :=
  Debug σ defaultLogger msg now

def pkgInfo (σ : State) (msg : String) (now : GoTime) : State :=
  Info σ defaultLogger msg now

def pkgWarn (σ : State) (msg : String) (now : GoTime) : State :=
  Warn σ defaultLogger msg now

def pkgError (σ : State) (msg : String) (now : GoTime) : State :=
  Error σ defaultLogger msg now

def pkgFatal (σ : State) (msg : String) (now : GoTime) : State × Outcome :=
  Fatal σ defaultLogger msg now

def pkgPanic (σ : State) (msg : String) (now : GoTime) : State × Outcome :=
  Panic σ defaultLogger msg now

/-! A small executable JSON recognizer (RFC 8259 grammar), used to state
which emitted lines are, or are not, valid JSON. -/

def isWs (c : Char) : Bool :=
  c == ' ' || c == '\t' || c == '\n' || c == '\r'

def skipWs : List Char → List Char
  | [] => []
  | c :: rest => if isWs c then skipWs rest else c :: rest

def isHexDigitCh (c : Char) : Bool :=
  (48 ≤ c.toNat && c.toNat ≤ 57) || (97 ≤ c.toNat && c.toNat ≤ 102) ||
    (65 ≤ c.toNat && c.toNat ≤ 70)

/-- Recognize the remainder of a JSON string literal (the opening quote
already consumed); returns the unconsumed suffix. -/
def jsonStringRest : List Char → Option (List Char)
  | [] => none
  | c :: rest =>
    if c == '"' then some rest
    else if c == '\\' then
      match rest with
      | [] => none
      | e :: rest2 =>
        if e == '"' || e == '\\' || e == '/' || e == 'b' || e == 'f' || e == 'n'
            || e == 'r' || e == 't' then
          jsonStringRest rest2
        else if e == 'u' then
          match rest2 with
          | a :: b :: c2 :: d :: rest3 =>
            if isHexDigitCh a && isHexDigitCh b && isHexDigitCh c2 && isHexDigitCh d then
              jsonStringRest rest3
            else none
          | _ => none
        else none
    else if c.toNat < 32 then none
    else jsonStringRest rest

def skipDigits : List Char → List Char
  | [] => []
  | c :: rest => if c.isDigit then skipDigits rest else c :: rest

/-- Optional fraction part `. digits`. -/
def jsonFrac : List Char → Option (List Char)
  | '.' :: rest =>
    match rest with
    | c :: _ => if c.isDigit then some (skipDigits rest) else none
    | [] => none
  | cs => some cs

/-- Optional exponent part `(e|E) (+|-)? digits`. -/
def jsonExp : List Char → Option (List Char)
  | [] => some []
  | c :: rest =>
    if c == 'e' || c == 'E' then
      let rest1 :=
        match rest with
        | s :: r2 => if s == '+' || s == '-' then r2 else rest
        | [] => rest
      match rest1 with
      | d :: _ => if d.isDigit then some (skipDigits rest1) else none
      | [] => none
    else some (c :: rest)

/-- Recognize a JSON number starting at the head of the input. -/
def jsonNumberRest (cs : List Char) : Option (List Char) := do
  let cs1 :=
    match cs with
    | '-' :: rest => rest
    | _ => cs
  match cs1 with
  | [] => none
  | c :: rest =>
    if c == '0' then do
      let r ← jsonFrac rest
      jsonExp r
    else if c.isDigit then do
      let r ← jsonFrac (skipDigits rest)
      jsonExp r
    else none

mutual

def jsonValue (fuel : Nat) (cs : List Char) : Option (List Char) :=
  match fuel with
  | 0 => none
  | fuel + 1 =>
    match skipWs cs with
    | [] => none
    | c :: rest =>
      if c == '"' then jsonStringRest rest
      else if c == lbrace then jsonObjBody fuel (skipWs rest)
      else if c == '[' then jsonArrBody fuel (skipWs rest)
      else if c == 't' then
        match rest with
        | 'r' :: 'u' :: 'e' :: r => some r
        | _ => none
      else if c == 'f' then
        match rest with
        | 'a' :: 'l' :: 's' :: 'e' :: r => some r
        | _ => none
      else if c == 'n' then
        match rest with
        | 'u' :: 'l' :: 'l' :: r => some r
        | _ => none
      else if c == '-' || c.isDigit then jsonNumberRest (c :: rest)
      else none

def jsonObjBody (fuel : Nat) (cs : List Char) : Option (List Char) :=
  match fuel with
  | 0 => none
  | fuel + 1 =>
    match cs with
    | [] => none
    | c :: rest =>
      if c == rbrace then some rest
      else if c == '"' then do
        let r1 ← jsonStringRest rest
        match skipWs r1 with
        | ':' :: r2 => do
          let r3 ← jsonValue fuel r2
          jsonObjMore fuel (skipWs r3)
        | _ => none
      else none

def jsonObjMore (fuel : Nat) (cs : List Char) : Option (List Char) :=
  match fuel with
  | 0 => none
  | fuel + 1 =>
    match cs with
    | [] => none
    | c :: rest =>
      if c == rbrace then some rest
      else if c == ',' then
        match skipWs rest with
        | [] => none
        | q :: r1 =>
          if q == '"' then do
            let r2 ← jsonStringRest r1
            match skipWs r2 with
            | ':' :: r3 => do
              let r4 ← jsonValue fuel r3
              jsonObjMore fuel (skipWs r4)
            | _ => none
          else none
      else none

def jsonArrBody (fuel : Nat) (cs : List Char) : Option (List Char) :=
  match fuel with
  | 0 => none
  | fuel + 1 =>
    match cs with
    | [] => none
    | c :: rest =>
      if c == ']' then some rest
      else do
        let r1 ← jsonValue fuel (c :: rest)
        jsonArrMore fuel (skipWs r1)

def jsonArrMore (fuel : Nat) (cs : List Char) : Option (List Char) :=
  match fuel with
  | 0 => none
  | fuel + 1 =>
    match cs with
    | [] => none
    | c :: rest =>
      if c == ']' then some rest
      else if c == ',' then do
        let r1 ← jsonValue fuel rest
        jsonArrMore fuel (skipWs r1)
      else none

end

/-- The whole string is one JSON value (plus surrounding whitespace). -/
def isValidJson (s : String) : Bool :=
  match jsonValue (s.length * 2 + 8) s.data with
  | some rest => (skipWs rest).isEmpty
  | none => false

/-- The whole string is one JSON object. -/
def isValidJsonObj (s : String) : Bool :=
  match skipWs s.data with
  | c :: _ => c == lbrace && isValidJson s
  | [] => false

/-! Lemmas about field maps. -/

theorem fLookup_nil (k : String) : fLookup [] k = none := rfl

theorem fLookup_cons (p : String × Value) (m : FieldsMap) (k : String) :
    fLookup (p :: m) k =
      match fLookup m k with
      | some v => some v
      | none => if p.1 = k then some p.2 else none := rfl

theorem fLookup_append (a b : FieldsMap) (k : String) :
    fLookup (a ++ b) k =
      match fLookup b k with
      | some v => some v
      | none => fLookup a k := by
  induction a with
  | nil => cases h : fLookup b k <;> simp [fLookup_nil, h]
  | cons p rest ih =>
    rw [List.cons_append, fLookup_cons, ih, fLookup_cons]
    cases h : fLookup b k <;> cases h2 : fLookup rest k <;> simp [h, h2]

theorem fLookup_filter_out (m : FieldsMap) (k k' : String) :
    fLookup (m.filter (fun p => decide (p.1 ≠ k))) k' =
      if k' = k then none else fLookup m k' := by
  induction m with
  | nil => simp [fLookup_nil]
  | cons p rest ih =>
    rw [List.filter_cons]
    by_cases hp : p.1 = k
    · rw [if_neg (by simp [hp]), ih]
      rcases eq_or_ne k' k with h | h
      · rw [if_pos h, if_pos h]
      · rw [if_neg h, if_neg h, fLookup_cons]
        cases h2 : fLookup rest k' with
        | some v => simp
        | none =>
          have hne : ¬ p.1 = k' := fun hx => h (hp.symm.trans hx).symm
          simp [hne]
    · rw [if_pos (by simp [hp]), fLookup_cons, ih]
      rcases eq_or_ne k' k with h | h
      · have hne : ¬ p.1 = k' := fun hx => hp (hx.trans h)
        simp [h, hne, hp]
      · rw [if_neg h, fLookup_cons, if_neg h]

theorem fLookup_fInsert (m : FieldsMap) (k : String) (v : Value) (k' : String) :
    fLookup (fInsert m k v) k' = if k' = k then some v else fLookup m k' := by
  rw [fInsert, fLookup_append, fLookup_filter_out]
  rcases eq_or_ne k' k with h | h
  · simp [fLookup_cons, fLookup_nil, h]
  · have : k ≠ k' := fun hx => h hx.symm
    simp [fLookup_cons, fLookup_nil, this, if_neg h]

theorem fMerge_nil (dst : FieldsMap) : fMerge dst [] = dst := rfl

theorem fMerge_cons (dst : FieldsMap) (p : String × Value) (rest : FieldsMap) :
    fMerge dst (p :: rest) = fMerge (fInsert dst p.1 p.2) rest := rfl

theorem fLookup_fMerge (dst src : FieldsMap) (k : String) :
    fLookup (fMerge dst src) k =
      match fLookup src k with
      | some v => some v
      | none => fLookup dst k := by
  induction src generalizing dst with
  | nil => simp [fMerge_nil, fLookup_nil]
  | cons p rest ih =>
    rw [fMerge_cons, ih, fLookup_cons]
    cases h2 : fLookup rest k with
    | some v => simp
    | none =>
      simp only [fLookup_fInsert]
      rcases eq_or_ne k p.1 with h | h
      · rw [if_pos h, if_pos h.symm]
      · rw [if_neg h, if_neg (fun hx => h hx.symm)]

theorem fLookup_isSome (m : FieldsMap) (k : String) :
    (fLookup m k).isSome = true ↔ k ∈ m.map Prod.fst := by
  induction m with
  | nil => simp [fLookup_nil]
  | cons p rest ih =>
    rw [fLookup_cons]
    cases h2 : fLookup rest k with
    | some v =>
      simp only [Option.isSome_some, List.map_cons, List.mem_cons, true_iff]
      right
      rw [← ih, h2]
      rfl
    | none =>
      rw [h2] at ih
      simp only [List.map_cons, List.mem_cons]
      rcases eq_or_ne p.1 k with h | h
      · simp [h]
      · simp only [if_neg h]
        simp only [Option.isSome_none, Bool.false_eq_true, false_iff] at ih ⊢
        intro hmem
        rcases hmem with hmem | hmem
        · exact h hmem.symm
        · exact ih hmem

theorem mem_fKeys (m : FieldsMap) (k : String) :
    k ∈ fKeys m ↔ k ∈ m.map Prod.fst := by
  simp [fKeys, List.mem_dedup]

theorem fLookup_isSome_fKeys (m : FieldsMap) (k : String) :
    (fLookup m k).isSome = true ↔ k ∈ fKeys m := by
  rw [fLookup_isSome, mem_fKeys]

theorem fLookup_eq_none_of_not_mem (m : FieldsMap) (k : String) (h : k ∉ fKeys m) :
    fLookup m k = none := by
  cases h2 : fLookup m k with
  | none => rfl
  | some v =>
    exfalso
    exact h ((fLookup_isSome_fKeys m k).1 (by simp [h2]))

theorem fLookup_mem (m : FieldsMap) (k : String) (v : Value) (h : fLookup m k = some v) :
    (k, v) ∈ m := by
  induction m with
  | nil => simp [fLookup_nil] at h
  | cons p rest ih =>
    rw [fLookup_cons] at h
    cases h2 : fLookup rest k with
    | some w =>
      rw [h2] at h
      simp only at h
      cases h
      exact List.mem_cons_of_mem _ (ih h2)
    | none =>
      rw [h2] at h
      simp only at h
      by_cases hp : p.1 = k
      · cases p with
        | mk a b =>
          simp only at hp
          rw [if_pos hp] at h
          cases h
          rw [← hp]
          exact List.mem_cons_self _ _
      · rw [if_neg hp] at h
        cases h

theorem mem_fInsert (m : FieldsMap) (k : String) (v : Value) (p : String × Value)
    (h : p ∈ fInsert m k v) : p ∈ m ∨ p = (k, v) := by
  rw [fInsert] at h
  rcases List.mem_append.1 h with h | h
  · exact Or.inl (List.mem_of_mem_filter h)
  · simp at h
    exact Or.inr h

theorem mem_fMerge (dst src : FieldsMap) (p : String × Value) (h : p ∈ fMerge dst src) :
    p ∈ dst ∨ p ∈ src := by
  induction src generalizing dst with
  | nil => exact Or.inl h
  | cons q rest ih =>
    rw [fMerge_cons] at h
    rcases ih _ h with h | h
    · rcases mem_fInsert _ _ _ _ h with h | h
      · exact Or.inl h
      · exact Or.inr (h ▸ List.mem_cons_self q rest)
    · exact Or.inr (List.mem_cons_of_mem _ h)

/-! Lemmas about key sorting and JSON encoding. -/

theorem insertSorted_perm (x : String) (l : List String) :
    List.Perm (insertSorted x l) (x :: l) := by
  induction l with
  | nil => exact List.Perm.refl _
  | cons y ys ih =>
    rw [insertSorted]
    by_cases h : strLE x y = true
    · rw [if_pos h]
    · rw [if_neg h]
      exact (ih.cons y).trans (List.Perm.swap x y ys)

theorem sortStrings_perm (l : List String) : List.Perm (sortStrings l) l := by
  induction l with
  | nil => exact List.Perm.refl _
  | cons x xs ih =>
    rw [sortStrings]
    exact (insertSorted_perm x (sortStrings xs)).trans (ih.cons x)

theorem mem_sortStrings (a : String) (l : List String) :
    a ∈ sortStrings l ↔ a ∈ l :=
  (sortStrings_perm l).mem_iff

theorem nodup_sortStrings (l : List String) (h : l.Nodup) : (sortStrings l).Nodup :=
  (sortStrings_perm l).nodup_iff.2 h

theorem fLookup_map_graph (ks : List String) (f : String → Value) (k : String) :
    fLookup (ks.map (fun k => (k, f k))) k =
      if k ∈ ks then some (f k) else none := by
  induction ks with
  | nil => simp [fLookup_nil]
  | cons a rest ih =>
    rw [List.map_cons, fLookup_cons, ih]
    by_cases h : k ∈ rest
    · simp [h]
    · rw [if_neg h]
      rcases eq_or_ne k a with h2 | h2
      · subst h2
        simp
      · have h3 : ¬ a = k := fun hx => h2 hx.symm
        simp [h, h2, h3]

theorem encodeValue_ok (v : Value) (h : v.serializable = true) :
    encodeValue v = .ok (encodeValueD v) := by
  cases v <;> simp [Value.serializable] at h ⊢ <;> rfl

theorem encodePairs_ok (l : List (String × Value)) (h : ∀ p ∈ l, p.2.serializable = true) :
    encodePairs l = .ok (l.map (fun p => quoteJson p.1 ++ ":" ++ encodeValueD p.2)) := by
  induction l with
  | nil => rfl
  | cons p rest ih =>
    rw [encodePairs, encodePair, encodeValue_ok p.2 (h p (List.mem_cons_self p rest)),
      ih (fun q hq => h q (List.mem_cons_of_mem p hq))]
    rfl

theorem sortedPairs_map_fst (m : FieldsMap) :
    (sortedPairs m).map Prod.fst = sortStrings (fKeys m) := by
  rw [sortedPairs, List.map_map]
  exact List.map_id _

theorem mem_sortedPairs_serializable (m : FieldsMap)
    (h : ∀ p ∈ m, p.2.serializable = true) :
    ∀ p ∈ sortedPairs m, p.2.serializable = true := by
  intro p hp
  rw [sortedPairs, List.mem_map] at hp
  obtain ⟨k, _, rfl⟩ := hp
  cases h2 : fLookup m k with
  | none => simp [h2, Value.serializable]
  | some v =>
    simp only [h2, Option.getD_some]
    exact h (k, v) (fLookup_mem m k v h2)

theorem jsonMarshal_ok (m : FieldsMap) (h : ∀ p ∈ m, p.2.serializable = true) :
    jsonMarshal m = .ok (renderObj (sortedPairs m)) := by
  rw [jsonMarshal, encodePairs_ok _ (mem_sortedPairs_serializable m h), renderObj]

/-! Frame lemmas about the store operations. -/

theorem clone_snd (σ : State) (r : Nat) : (clone σ r).2 = σ.loggers.length := rfl

theorem clone_loggers_length (σ : State) (r : Nat) :
    (clone σ r).1.loggers.length = σ.loggers.length + 1 := by
  simp [clone]

theorem clone_maps_length (σ : State) (r : Nat) :
    (clone σ r).1.maps.length = σ.maps.length + 1 := by
  simp [clone]

theorem clone_sinks (σ : State) (r : Nat) : (clone σ r).1.sinks = σ.sinks := rfl

theorem clone_getLogger_new (σ : State) (r : Nat) :
    (clone σ r).1.getLogger σ.loggers.length
      = { σ.getLogger r with fields := σ.maps.length } := by
  simp [clone, State.getLogger, List.getElem?_concat_length]

theorem clone_getLogger_old (σ : State) (r r' : Nat) (h : r' < σ.loggers.length) :
    (clone σ r).1.getLogger r' = σ.getLogger r' := by
  simp [clone, State.getLogger, List.getElem?_append_left h]

theorem clone_getMap_new (σ : State) (r : Nat) :
    (clone σ r).1.getMap σ.maps.length = σ.getMap (σ.getLogger r).fields := by
  simp [clone, State.getMap, List.getElem?_concat_length]

theorem clone_getMap_old (σ : State) (r i : Nat) (h : i < σ.maps.length) :
    (clone σ r).1.getMap i = σ.getMap i := by
  simp [clone, State.getMap, List.getElem?_append_left h]

theorem setMap_getLogger (σ : State) (i : Nat) (m : FieldsMap) (r : Nat) :
    (σ.setMap i m).getLogger r = σ.getLogger r := rfl

theorem setMap_sinks (σ : State) (i : Nat) (m : FieldsMap) :
    (σ.setMap i m).sinks = σ.sinks := rfl

theorem setMap_loggers (σ : State) (i : Nat) (m : FieldsMap) :
    (σ.setMap i m).loggers = σ.loggers := rfl

theorem setMap_maps_length (σ : State) (i : Nat) (m : FieldsMap) :
    (σ.setMap i m).maps.length = σ.maps.length := by
  simp [State.setMap]

theorem setMap_getMap_self (σ : State) (i : Nat) (m : FieldsMap) (h : i < σ.maps.length) :
    (σ.setMap i m).getMap i = m := by
  simp [State.setMap, State.getMap, List.getElem?_set_self h]

theorem setMap_getMap_ne (σ : State) (i j : Nat) (m : FieldsMap) (h : i ≠ j) :
    (σ.setMap i m).getMap j = σ.getMap j := by
  simp [State.setMap, State.getMap, List.getElem?_set_ne h]

theorem write_loggers (σ : State) (i : Nat) (s : String) :
    (σ.write i s).loggers = σ.loggers := rfl

theorem write_maps (σ : State) (i : Nat) (s : String) :
    (σ.write i s).maps = σ.maps := rfl

theorem write_getSink_self (σ : State) (i : Nat) (s : String) (h : i < σ.sinks.length) :
    (σ.write i s).getSink i = σ.getSink i ++ s := by
  simp [State.write, State.getSink, List.getElem?_set_self h]

theorem write_getSink_ne (σ : State) (i j : Nat) (s : String) (h : i ≠ j) :
    (σ.write i s).getSink j = σ.getSink j := by
  simp [State.write, State.getSink, List.getElem?_set_ne h]

theorem SetLevel_snd (σ : State) (r : Nat) (level : Int) : (SetLevel σ r level).2 = r := rfl

theorem SetLevel_getLogger_self (σ : State) (r : Nat) (level : Int)
    (h : r < σ.loggers.length) :
    (SetLevel σ r level).1.getLogger r = { σ.getLogger r with level := level } := by
  simp [SetLevel, State.setLoggerRec, State.getLogger, List.getElem?_set_self h]

theorem SetLevel_maps (σ : State) (r : Nat) (level : Int) :
    (SetLevel σ r level).1.maps = σ.maps := rfl

theorem SetLevel_sinks (σ : State) (r : Nat) (level : Int) :
    (SetLevel σ r level).1.sinks = σ.sinks := rfl

theorem SetLevel_loggers_length (σ : State) (r : Nat) (level : Int) :
    (SetLevel σ r level).1.loggers.length = σ.loggers.length := by
  simp [SetLevel, State.setLoggerRec]

theorem SetLevel_okRef (σ : State) (r : Nat) (level : Int) (h : σ.okRef r) :
    (SetLevel σ r level).1.okRef r := by
  obtain ⟨h1, h2, h3⟩ := h
  refine ⟨by rw [SetLevel_loggers_length]; exact h1, ?_, ?_⟩
  · rw [SetLevel_getLogger_self σ r level h1]
    exact h2
  · rw [SetLevel_getLogger_self σ r level h1]
    exact h3

theorem AddField_eq (σ : State) (r : Nat) (key : String) (value : Value) :
    AddField σ r key value
      = ((clone σ r).1.setMap σ.maps.length
          (fInsert (σ.getMap (σ.getLogger r).fields) key value), σ.loggers.length) := by
  show ((clone σ r).1.setMap ((clone σ r).1.getLogger (clone σ r).2).fields
      (fInsert ((clone σ r).1.getMap ((clone σ r).1.getLogger (clone σ r).2).fields) key value),
      (clone σ r).2) = _
  rw [clone_snd, clone_getLogger_new]
  simp only [clone_getMap_new]

theorem AddFields_eq (σ : State) (r : Nat) (fields : FieldsMap) :
    AddFields σ r fields
      = ((clone σ r).1.setMap σ.maps.length
          (fMerge (σ.getMap (σ.getLogger r).fields) fields), σ.loggers.length) := by
  show ((clone σ r).1.setMap ((clone σ r).1.getLogger (clone σ r).2).fields
      (fMerge ((clone σ r).1.getMap ((clone σ r).1.getLogger (clone σ r).2).fields) fields),
      (clone σ r).2) = _
  rw [clone_snd, clone_getLogger_new]
  simp only [clone_getMap_new]

/-- Common shape of `AddField`'s and `AddFields`'s result: the clone state
with one more map set to `newMap`. -/
theorem derive_getLogger_new (σ : State) (r : Nat) (newMap : FieldsMap) :
    ((clone σ r).1.setMap σ.maps.length newMap).getLogger σ.loggers.length
      = { σ.getLogger r with fields := σ.maps.length } := by
  rw [setMap_getLogger, clone_getLogger_new]

theorem derive_fieldsOf_new (σ : State) (r : Nat) (newMap : FieldsMap) :
    ((clone σ r).1.setMap σ.maps.length newMap).fieldsOf σ.loggers.length = newMap := by
  rw [State.fieldsOf, derive_getLogger_new]
  exact setMap_getMap_self _ _ _ (by rw [clone_maps_length]; omega)

theorem derive_getLogger_old (σ : State) (r r' : Nat) (newMap : FieldsMap)
    (h : r' < σ.loggers.length) :
    ((clone σ r).1.setMap σ.maps.length newMap).getLogger r' = σ.getLogger r' := by
  rw [setMap_getLogger, clone_getLogger_old σ r r' h]

theorem derive_fieldsOf_old (σ : State) (r r' : Nat) (newMap : FieldsMap)
    (h1 : r' < σ.loggers.length) (h2 : (σ.getLogger r').fields < σ.maps.length) :
    ((clone σ r).1.setMap σ.maps.length newMap).fieldsOf r' = σ.fieldsOf r' := by
  rw [State.fieldsOf, derive_getLogger_old σ r r' newMap h1, State.fieldsOf,
    setMap_getMap_ne _ _ _ _ (Nat.ne_of_gt h2), clone_getMap_old σ r _ h2]

theorem derive_sinks (σ : State) (r : Nat) (newMap : FieldsMap) :
    ((clone σ r).1.setMap σ.maps.length newMap).sinks = σ.sinks := rfl

theorem derive_okRef_new (σ : State) (r : Nat) (newMap : FieldsMap) (h : σ.okRef r) :
    ((clone σ r).1.setMap σ.maps.length newMap).okRef σ.loggers.length := by
  obtain ⟨h1, h2, h3⟩ := h
  refine ⟨?_, ?_, ?_⟩
  · rw [setMap_loggers, clone_loggers_length]
    omega
  · rw [derive_getLogger_new, setMap_maps_length, clone_maps_length]
    exact Nat.lt_succ_self _
  · rw [derive_getLogger_new]
    show (σ.getLogger r).output < _
    rw [setMap_sinks, clone_sinks]
    exact h3

theorem derive_okRef_old (σ : State) (r r' : Nat) (newMap : FieldsMap) (h : σ.okRef r') :
    ((clone σ r).1.setMap σ.maps.length newMap).okRef r' := by
  obtain ⟨h1, h2, h3⟩ := h
  refine ⟨?_, ?_, ?_⟩
  · rw [setMap_loggers, clone_loggers_length]
    omega
  · rw [derive_getLogger_old σ r r' newMap h1, setMap_maps_length, clone_maps_length]
    omega
  · rw [derive_getLogger_old σ r r' newMap h1]
    show (σ.getLogger r').output < _
    rw [setMap_sinks, clone_sinks]
    exact h3

/-! Lemmas about `log`. -/

theorem log_skip (σ : State) (r : Nat) (level : Int) (msg : String) (now : GoTime)
    (h : level < (σ.getLogger r).level) :
    log σ r level msg now = σ := by
  simp [log, h]

theorem log_emit_ok (σ : State) (r : Nat) (level : Int) (msg : String) (now : GoTime)
    (s : String) (h : ¬ level < (σ.getLogger r).level)
    (hm : jsonMarshal (entryOf σ r level msg now) = .ok s) :
    log σ r level msg now = σ.write (σ.getLogger r).output (s ++ "\n") := by
  simp [log, h, hm]

theorem log_emit_error (σ : State) (r : Nat) (level : Int) (msg : String) (now : GoTime)
    (e : String) (h : ¬ level < (σ.getLogger r).level)
    (hm : jsonMarshal (entryOf σ r level msg now) = .error e) :
    log σ r level msg now = σ.write (σ.getLogger r).output
      (fallbackLine e (goFormat (σ.getLogger r).timeFormat now) ++ "\n") := by
  simp [log, h, hm]

/-- C8: the severity display-name function maps the six defined levels to
"DEBUG", "INFO", "WARN", "ERROR", "FATAL", "PANIC", and every other integer
severity to "UNKNOWN". -/
theorem C8_level_display_names :
    (levelString LevelDebug = "DEBUG" ∧ levelString LevelInfo = "INFO" ∧
      levelString LevelWarn = "WARN" ∧ levelString LevelError = "ERROR" ∧
      levelString LevelFatal = "FATAL" ∧ levelString LevelPanic = "PANIC") ∧
    ∀ l : Int,
      l ∉ ([LevelDebug, LevelInfo, LevelWarn, LevelError, LevelFatal, LevelPanic] : List Int) →
        levelString l = "UNKNOWN" := by
  refine ⟨⟨rfl, rfl, rfl, rfl, rfl, rfl⟩, ?_⟩
  intro l hl
  simp only [List.mem_cons, List.not_mem_nil, or_false, not_or] at hl
  obtain ⟨h0, h1, h2, h3, h4, h5⟩ := hl
  simp [levelString, levelNames, h0, h1, h2, h3, h4, h5]

theorem C8_witness : levelString 42 = "UNKNOWN" :=
  C8_level_display_names.2 42 (by decide)

/-- C9: `Panic(msg)` always ends in a panic carrying exactly `msg` and
`Fatal(msg)` always ends in exit status 1; when the configured threshold is
strictly above `LevelPanic` (resp. `LevelFatal`) — reachable because
`SetLevel` accepts any integer — the effect still happens and the store
(hence every sink) is completely unchanged. -/
theorem C9_panic_fatal_always_effect (σ : State) (r : Nat) (msg : String) (now : GoTime) :
    ((Panic σ r msg now).2 = Outcome.panicked msg) ∧
    ((Fatal σ r msg now).2 = Outcome.exited 1) ∧
    (LevelPanic < (σ.getLogger r).level → (Panic σ r msg now).1 = σ) ∧
    (LevelFatal < (σ.getLogger r).level → (Fatal σ r msg now).1 = σ) := by
  refine ⟨rfl, rfl, ?_, ?_⟩
  · intro h
    exact log_skip σ r LevelPanic msg now h
  · intro h
    exact log_skip σ r LevelFatal msg now h

def probeTime : GoTime := ⟨2026, 10, 11, 12, 30, 45⟩

def highThresholdState : State := (SetLevel startupState defaultLogger 6).1

theorem C9_witness :
    (Panic highThresholdState defaultLogger "boom" probeTime).2 = Outcome.panicked "boom" ∧
    (Fatal highThresholdState defaultLogger "boom" probeTime).2 = Outcome.exited 1 ∧
    (Panic highThresholdState defaultLogger "boom" probeTime).1 = highThresholdState ∧
    (Fatal highThresholdState defaultLogger "boom" probeTime).1 = highThresholdState := by
  obtain ⟨a, b, c, d⟩ :=
    C9_panic_fatal_always_effect highThresholdState defaultLogger "boom" probeTime
  exact ⟨a, b, c (by decide), d (by decide)⟩

/-- C5: `AddField(key, value)` returns a distinct new logger with the same
threshold, sink and timestamp format, whose field set is the receiver's
with `key → value` inserted or overwritten, and leaves the receiver's
record, field set and every sink unchanged. -/
theorem C5_AddField_frame (σ : State) (r : Nat) (key : String) (value : Value)
    (hok : σ.okRef r) :
    (AddField σ r key value).2 ≠ r ∧
    ((AddField σ r key value).1.getLogger (AddField σ r key value).2).level
      = (σ.getLogger r).level ∧
    ((AddField σ r key value).1.getLogger (AddField σ r key value).2).output
      = (σ.getLogger r).output ∧
    ((AddField σ r key value).1.getLogger (AddField σ r key value).2).timeFormat
      = (σ.getLogger r).timeFormat ∧
    (AddField σ r key value).1.fieldsOf (AddField σ r key value).2
      = fInsert (σ.fieldsOf r) key value ∧
    (∀ k, fLookup ((AddField σ r key value).1.fieldsOf (AddField σ r key value).2) k
      = if k = key then some value else fLookup (σ.fieldsOf r) k) ∧
    (AddField σ r key value).1.getLogger r = σ.getLogger r ∧
    (AddField σ r key value).1.fieldsOf r = σ.fieldsOf r ∧
    (AddField σ r key value).1.sinks = σ.sinks := by
  obtain ⟨h1, h2, h3⟩ := hok
  have hf : (AddField σ r key value).1.fieldsOf (AddField σ r key value).2
      = fInsert (σ.fieldsOf r) key value := by
    rw [AddField_eq]
    exact derive_fieldsOf_new σ r _
  have hg : (AddField σ r key value).1.getLogger (AddField σ r key value).2
      = { σ.getLogger r with fields := σ.maps.length } := by
    rw [AddField_eq]
    exact derive_getLogger_new σ r _
  refine ⟨?_, by rw [hg], by rw [hg], by rw [hg], hf, ?_, ?_, ?_, ?_⟩
  · rw [AddField_eq]
    exact Nat.ne_of_gt h1
  · intro k
    rw [hf, fLookup_fInsert]
  · rw [AddField_eq]
    exact derive_getLogger_old σ r r _ h1
  · rw [AddField_eq]
    exact derive_fieldsOf_old σ r r _ h1 h2
  · rw [AddField_eq]
    exact derive_sinks σ r _

theorem C5_witness :
    (AddField startupState defaultLogger "req_id" (Value.str "abc123")).2 ≠ defaultLogger ∧
    ((AddField startupState defaultLogger "req_id" (Value.str "abc123")).1.getLogger
        (AddField startupState defaultLogger "req_id" (Value.str "abc123")).2).level
      = (startupState.getLogger defaultLogger).level ∧
    ((AddField startupState defaultLogger "req_id" (Value.str "abc123")).1.getLogger
        (AddField startupState defaultLogger "req_id" (Value.str "abc123")).2).output
      = (startupState.getLogger defaultLogger).output ∧
    ((AddField startupState defaultLogger "req_id" (Value.str "abc123")).1.getLogger
        (AddField startupState defaultLogger "req_id" (Value.str "abc123")).2).timeFormat
      = (startupState.getLogger defaultLogger).timeFormat ∧
    (AddField startupState defaultLogger "req_id" (Value.str "abc123")).1.fieldsOf
        (AddField startupState defaultLogger "req_id" (Value.str "abc123")).2
      = fInsert (startupState.fieldsOf defaultLogger) "req_id" (Value.str "abc123") ∧
    (∀ k, fLookup ((AddField startupState defaultLogger "req_id" (Value.str "abc123")).1.fieldsOf
        (AddField startupState defaultLogger "req_id" (Value.str "abc123")).2) k
      = if k = "req_id" then some (Value.str "abc123")
        else fLookup (startupState.fieldsOf defaultLogger) k) ∧
    (AddField startupState defaultLogger "req_id" (Value.str "abc123")).1.getLogger defaultLogger
      = startupState.getLogger defaultLogger ∧
    (AddField startupState defaultLogger "req_id" (Value.str "abc123")).1.fieldsOf defaultLogger
      = startupState.fieldsOf defaultLogger ∧
    (AddField startupState defaultLogger "req_id" (Value.str "abc123")).1.sinks
      = startupState.sinks :=
  C5_AddField_frame startupState defaultLogger "req_id" (Value.str "abc123") (by decide)

/-- C3: `AddFields(F1)` then `AddFields(F2)` yields the original field set
merged with `F1` then `F2`, later writes overwriting earlier ones for the
same key; the original logger's field set is unchanged after both calls. -/
theorem C3_AddFields_merge (σ : State) (r : Nat) (F1 F2 : FieldsMap) (hok : σ.okRef r) :
    ((AddFields (AddFields σ r F1).1 (AddFields σ r F1).2 F2).1.fieldsOf
        (AddFields (AddFields σ r F1).1 (AddFields σ r F1).2 F2).2
      = fMerge (fMerge (σ.fieldsOf r) F1) F2) ∧
    (∀ k, fLookup ((AddFields (AddFields σ r F1).1 (AddFields σ r F1).2 F2).1.fieldsOf
        (AddFields (AddFields σ r F1).1 (AddFields σ r F1).2 F2).2) k
      = match fLookup F2 k with
        | some v => some v
        | none =>
          match fLookup F1 k with
          | some v => some v
          | none => fLookup (σ.fieldsOf r) k) ∧
    ((AddFields σ r F1).1.fieldsOf r = σ.fieldsOf r) ∧
    ((AddFields (AddFields σ r F1).1 (AddFields σ r F1).2 F2).1.fieldsOf r
      = σ.fieldsOf r) := by
  obtain ⟨h1, h2, h3⟩ := hok
  have k1 : (AddFields σ r F1).1.fieldsOf (AddFields σ r F1).2 = fMerge (σ.fieldsOf r) F1 := by
    rw [AddFields_eq]
    exact derive_fieldsOf_new σ r _
  have old1 : (AddFields σ r F1).1.fieldsOf r = σ.fieldsOf r := by
    rw [AddFields_eq]
    exact derive_fieldsOf_old σ r r _ h1 h2
  have oldok1 : (AddFields σ r F1).1.okRef r := by
    rw [AddFields_eq]
    exact derive_okRef_old σ r r _ ⟨h1, h2, h3⟩
  have k2 : (AddFields (AddFields σ r F1).1 (AddFields σ r F1).2 F2).1.fieldsOf
      (AddFields (AddFields σ r F1).1 (AddFields σ r F1).2 F2).2
      = fMerge ((AddFields σ r F1).1.fieldsOf (AddFields σ r F1).2) F2 := by
    rw [AddFields_eq ((AddFields σ r F1).1)]
    exact derive_fieldsOf_new _ _ _
  have old2 : (AddFields (AddFields σ r F1).1 (AddFields σ r F1).2 F2).1.fieldsOf r
      = (AddFields σ r F1).1.fieldsOf r := by
    rw [AddFields_eq ((AddFields σ r F1).1)]
    exact derive_fieldsOf_old _ _ r _ oldok1.1 oldok1.2.1
  have kk : (AddFields (AddFields σ r F1).1 (AddFields σ r F1).2 F2).1.fieldsOf
      (AddFields (AddFields σ r F1).1 (AddFields σ r F1).2 F2).2
      = fMerge (fMerge (σ.fieldsOf r) F1) F2 := by
    rw [k2, k1]
  refine ⟨kk, ?_, old1, old2.trans old1⟩
  intro k
  rw [kk, fLookup_fMerge, fLookup_fMerge]

theorem C3_witness :
    ((AddFields (AddFields startupState defaultLogger [("a", Value.int 1), ("b", Value.int 2)]).1
        (AddFields startupState defaultLogger [("a", Value.int 1), ("b", Value.int 2)]).2
        [("b", Value.int 3), ("c", Value.int 4)]).1.fieldsOf
        (AddFields (AddFields startupState defaultLogger [("a", Value.int 1), ("b", Value.int 2)]).1
          (AddFields startupState defaultLogger [("a", Value.int 1), ("b", Value.int 2)]).2
          [("b", Value.int 3), ("c", Value.int 4)]).2
      = fMerge (fMerge (startupState.fieldsOf defaultLogger)
          [("a", Value.int 1), ("b", Value.int 2)]) [("b", Value.int 3), ("c", Value.int 4)]) ∧
    ((AddFields startupState defaultLogger
        [("a", Value.int 1), ("b", Value.int 2)]).1.fieldsOf defaultLogger
      = startupState.fieldsOf defaultLogger) := by
  obtain ⟨a, _, c, _⟩ :=
    C3_AddFields_merge startupState defaultLogger [("a", Value.int 1), ("b", Value.int 2)]
      [("b", Value.int 3), ("c", Value.int 4)] (by decide)
  exact ⟨a, c⟩

/-- C1: after setting the threshold to `b`, emitting at any severity
`a < b` leaves the whole store untouched (the call returns before building
the entry or doing any I/O), while emitting at `b` or any higher severity
appends a newline-terminated line to the logger's sink. -/
theorem C1_threshold_filtering (σ : State) (r : Nat) (a b : Int) (msg msg2 : String)
    (now now2 : GoTime) (hok : σ.okRef r) (hab : a < b) :
    (log (SetLevel σ r b).1 r a msg now = (SetLevel σ r b).1) ∧
    (∀ c : Int, b ≤ c → ∃ line : String,
      (log (SetLevel σ r b).1 r c msg2 now2).getSink ((σ.getLogger r).output)
        = (SetLevel σ r b).1.getSink ((σ.getLogger r).output) ++ line ++ "\n") := by
  obtain ⟨h1, h2, h3⟩ := hok
  have hg : (SetLevel σ r b).1.getLogger r = { σ.getLogger r with level := b } :=
    SetLevel_getLogger_self σ r b h1
  constructor
  · apply log_skip
    rw [hg]
    exact hab
  · intro c hc
    have hnb : ¬ c < ((SetLevel σ r b).1.getLogger r).level := by
      rw [hg]
      exact not_lt.2 hc
    have hout : ((SetLevel σ r b).1.getLogger r).output = (σ.getLogger r).output := by
      rw [hg]
    have hsink : (σ.getLogger r).output < (SetLevel σ r b).1.sinks.length := by
      rw [SetLevel_sinks]
      exact h3
    cases hm : jsonMarshal (entryOf (SetLevel σ r b).1 r c msg2 now2) with
    | ok s =>
      refine ⟨s, ?_⟩
      rw [log_emit_ok _ _ _ _ _ _ hnb hm, hout, write_getSink_self _ _ _ hsink,
        String.append_assoc]
    | error e =>
      refine ⟨fallbackLine e (goFormat ((SetLevel σ r b).1.getLogger r).timeFormat now2), ?_⟩
      rw [log_emit_error _ _ _ _ _ _ hnb hm, hout, write_getSink_self _ _ _ hsink,
        String.append_assoc]

theorem C1_witness :
    (log (SetLevel startupState defaultLogger LevelWarn).1 defaultLogger LevelDebug "x" probeTime
      = (SetLevel startupState defaultLogger LevelWarn).1) ∧
    ∃ line : String,
      (log (SetLevel startupState defaultLogger LevelWarn).1 defaultLogger LevelWarn "z"
          probeTime).getSink ((startupState.getLogger defaultLogger).output)
        = (SetLevel startupState defaultLogger LevelWarn).1.getSink
            ((startupState.getLogger defaultLogger).output) ++ line ++ "\n" := by
  obtain ⟨ha, hb⟩ :=
    C1_threshold_filtering startupState defaultLogger LevelDebug LevelWarn "x" "z"
      probeTime probeTime (by decide) (by decide)
  exact ⟨ha, hb LevelWarn (by decide)⟩

theorem mem_fKeys_fMerge (dst src : FieldsMap) (k : String) :
    k ∈ fKeys (fMerge dst src) ↔ k ∈ fKeys dst ∨ k ∈ fKeys src := by
  rw [← fLookup_isSome_fKeys, ← fLookup_isSome_fKeys, ← fLookup_isSome_fKeys, fLookup_fMerge]
  cases h : fLookup src k <;> simp [h]

theorem fKeys_entryBase (a b c : Value) :
    fKeys [("level", a), ("message", b), ("time", c)] = ["level", "message", "time"] := rfl

theorem fLookup_entryBase_level (a b c : Value) :
    fLookup [("level", a), ("message", b), ("time", c)] "level" = some a := rfl

theorem fLookup_entryBase_message (a b c : Value) :
    fLookup [("level", a), ("message", b), ("time", c)] "message" = some b := rfl

theorem fLookup_entryBase_time (a b c : Value) :
    fLookup [("level", a), ("message", b), ("time", c)] "time" = some c := rfl

theorem entryOf_eq (σ : State) (r : Nat) (lvl : Int) (msg : String) (now : GoTime) :
    entryOf σ r lvl msg now =
      fMerge
        [("level", Value.str (levelString lvl)), ("message", Value.str msg),
          ("time", Value.str (goFormat (σ.getLogger r).timeFormat now))]
        (σ.fieldsOf r) := rfl

/-- C2: every line the normal (non-fallback) path emits is the rendering of
a JSON object (distinct keys, serializable values) followed by one newline;
its key set is exactly level/message/time plus the logger's field keys, and
level/message/time carry the display name, the message and the rendered
timestamp unless a field of the same name overwrites them
(last-write-wins). -/
theorem C2_emitted_line_shape (σ : State) (r : Nat) (lvl : Int) (msg : String)
    (now : GoTime) (hok : σ.okRef r) (hlvl : ¬ lvl < (σ.getLogger r).level)
    (hser : ∀ p ∈ σ.fieldsOf r, p.2.serializable = true) :
    ∃ pairs : List (String × Value),
      ((log σ r lvl msg now).getSink ((σ.getLogger r).output)
        = σ.getSink ((σ.getLogger r).output) ++ renderObj pairs ++ "\n") ∧
      (pairs.map Prod.fst).Nodup ∧
      (∀ p ∈ pairs, p.2.serializable = true) ∧
      (∀ k, k ∈ pairs.map Prod.fst ↔
        (k = "level" ∨ k = "message" ∨ k = "time" ∨ k ∈ fKeys (σ.fieldsOf r))) ∧
      ("level" ∉ fKeys (σ.fieldsOf r) →
        fLookup pairs "level" = some (Value.str (levelString lvl))) ∧
      ("message" ∉ fKeys (σ.fieldsOf r) →
        fLookup pairs "message" = some (Value.str msg)) ∧
      ("time" ∉ fKeys (σ.fieldsOf r) →
        fLookup pairs "time" = some (Value.str (goFormat (σ.getLogger r).timeFormat now))) ∧
      (∀ k, k ∈ fKeys (σ.fieldsOf r) → fLookup pairs k = fLookup (σ.fieldsOf r) k) := by
  obtain ⟨h1, h2, h3⟩ := hok
  have hserE : ∀ p ∈ entryOf σ r lvl msg now, p.2.serializable = true := by
    intro p hp
    rw [entryOf_eq] at hp
    rcases mem_fMerge _ _ _ hp with h | h
    · simp only [List.mem_cons, List.not_mem_nil, or_false] at h
      rcases h with h | h | h <;> subst h <;> rfl
    · exact hser p h
  have hmOk := jsonMarshal_ok _ hserE
  refine ⟨sortedPairs (entryOf σ r lvl msg now), ?_, ?_, ?_, ?_, ?_, ?_, ?_, ?_⟩
  · rw [log_emit_ok _ _ _ _ _ _ hlvl hmOk, write_getSink_self _ _ _ h3, String.append_assoc]
  · rw [sortedPairs_map_fst]
    exact nodup_sortStrings _ (List.nodup_dedup _)
  · exact mem_sortedPairs_serializable _ hserE
  · intro k
    rw [sortedPairs_map_fst, mem_sortStrings, entryOf_eq, mem_fKeys_fMerge, fKeys_entryBase]
    simp only [List.mem_cons, List.not_mem_nil, or_false]
    tauto
  · intro hnot
    rw [sortedPairs, fLookup_map_graph]
    have hmem : "level" ∈ sortStrings (fKeys (entryOf σ r lvl msg now)) := by
      rw [mem_sortStrings, entryOf_eq, mem_fKeys_fMerge, fKeys_entryBase]
      left
      simp
    rw [if_pos hmem]
    have hval : fLookup (entryOf σ r lvl msg now) "level"
        = some (Value.str (levelString lvl)) := by
      rw [entryOf_eq, fLookup_fMerge, fLookup_eq_none_of_not_mem _ _ hnot]
      exact fLookup_entryBase_level _ _ _
    rw [hval]
    rfl
  · intro hnot
    rw [sortedPairs, fLookup_map_graph]
    have hmem : "message" ∈ sortStrings (fKeys (entryOf σ r lvl msg now)) := by
      rw [mem_sortStrings, entryOf_eq, mem_fKeys_fMerge, fKeys_entryBase]
      left
      simp
    rw [if_pos hmem]
    have hval : fLookup (entryOf σ r lvl msg now) "message" = some (Value.str msg) := by
      rw [entryOf_eq, fLookup_fMerge, fLookup_eq_none_of_not_mem _ _ hnot]
      exact fLookup_entryBase_message _ _ _
    rw [hval]
    rfl
  · intro hnot
    rw [sortedPairs, fLookup_map_graph]
    have hmem : "time" ∈ sortStrings (fKeys (entryOf σ r lvl msg now)) := by
      rw [mem_sortStrings, entryOf_eq, mem_fKeys_fMerge, fKeys_entryBase]
      left
      simp
    rw [if_pos hmem]
    have hval : fLookup (entryOf σ r lvl msg now) "time"
        = some (Value.str (goFormat (σ.getLogger r).timeFormat now)) := by
      rw [entryOf_eq, fLookup_fMerge, fLookup_eq_none_of_not_mem _ _ hnot]
      exact fLookup_entryBase_time _ _ _
    rw [hval]
    rfl
  · intro k hk
    rw [sortedPairs, fLookup_map_graph]
    have hmem : k ∈ sortStrings (fKeys (entryOf σ r lvl msg now)) := by
      rw [mem_sortStrings, entryOf_eq, mem_fKeys_fMerge]
      exact Or.inr hk
    rw [if_pos hmem]
    obtain ⟨v, hv⟩ := Option.isSome_iff_exists.1 ((fLookup_isSome_fKeys _ _).2 hk)
    have hval : fLookup (entryOf σ r lvl msg now) k = some v := by
      rw [entryOf_eq, fLookup_fMerge, hv]
    rw [hval, hv]
    rfl

def fieldedState : State :=
  (AddField startupState defaultLogger "req_id" (Value.str "abc123")).1

def fieldedRef : Nat :=
  (AddField startupState defaultLogger "req_id" (Value.str "abc123")).2

theorem C2_witness :
    ∃ pairs : List (String × Value),
      ((log fieldedState fieldedRef LevelError "boom" probeTime).getSink
          ((fieldedState.getLogger fieldedRef).output)
        = fieldedState.getSink ((fieldedState.getLogger fieldedRef).output)
            ++ renderObj pairs ++ "\n") ∧
      (pairs.map Prod.fst).Nodup ∧
      (∀ p ∈ pairs, p.2.serializable = true) ∧
      (∀ k, k ∈ pairs.map Prod.fst ↔
        (k = "level" ∨ k = "message" ∨ k = "time"
          ∨ k ∈ fKeys (fieldedState.fieldsOf fieldedRef))) ∧
      ("level" ∉ fKeys (fieldedState.fieldsOf fieldedRef) →
        fLookup pairs "level" = some (Value.str (levelString LevelError))) ∧
      ("message" ∉ fKeys (fieldedState.fieldsOf fieldedRef) →
        fLookup pairs "message" = some (Value.str "boom")) ∧
      ("time" ∉ fKeys (fieldedState.fieldsOf fieldedRef) →
        fLookup pairs "time"
          = some (Value.str (goFormat (fieldedState.getLogger fieldedRef).timeFormat probeTime))) ∧
      (∀ k, k ∈ fKeys (fieldedState.fieldsOf fieldedRef) →
        fLookup pairs k = fLookup (fieldedState.fieldsOf fieldedRef) k) :=
  C2_emitted_line_shape fieldedState fieldedRef LevelError "boom" probeTime
    (by decide) (by decide) (by decide)

/-- C4: when serializing the entry fails, `log` appends exactly one
fallback line — the fixed template with level "ERROR", the fixed message,
the error's text and a freshly rendered timestamp — to the logger's own
sink, whatever the original severity and message were, and every other
sink is untouched.  `log` returns normally (it is a total function into
`State`): no error reaches the caller. -/
theorem C4_fallback_line (σ : State) (r : Nat) (lvl : Int) (msg : String) (now : GoTime)
    (e : String) (hok : σ.okRef r) (hlvl : ¬ lvl < (σ.getLogger r).level)
    (herr : jsonMarshal (entryOf σ r lvl msg now) = .error e) :
    ((log σ r lvl msg now).getSink ((σ.getLogger r).output)
      = σ.getSink ((σ.getLogger r).output)
        ++ fallbackLine e (goFormat (σ.getLogger r).timeFormat now) ++ "\n") ∧
    (∀ i, i ≠ (σ.getLogger r).output → (log σ r lvl msg now).getSink i = σ.getSink i) := by
  obtain ⟨h1, h2, h3⟩ := hok
  constructor
  · rw [log_emit_error _ _ _ _ _ _ hlvl herr, write_getSink_self _ _ _ h3,
      String.append_assoc]
  · intro i hi
    rw [log_emit_error _ _ _ _ _ _ hlvl herr,
      write_getSink_ne _ _ _ _ (fun hx => hi hx.symm)]

def chanErrText : String := "json: unsupported type: chan int"

/-- A logger whose field set holds a value `json.Marshal` rejects. -/
def badFieldState : State :=
  ⟨[⟨LevelInfo, 0, 0, "2006-01-02 15:04:05"⟩],
    [[("f", Value.unserializable chanErrText)]], [""]⟩

set_option maxRecDepth 100000 in
theorem C4_witness :
    ((log badFieldState 0 LevelError "ignored" probeTime).getSink
        ((badFieldState.getLogger 0).output)
      = badFieldState.getSink ((badFieldState.getLogger 0).output)
        ++ fallbackLine chanErrText
            (goFormat (badFieldState.getLogger 0).timeFormat probeTime) ++ "\n") ∧
    (∀ i, i ≠ (badFieldState.getLogger 0).output →
      (log badFieldState 0 LevelError "ignored" probeTime).getSink i
        = badFieldState.getSink i) :=
  C4_fallback_line badFieldState 0 LevelError "ignored" probeTime chanErrText
    (by decide) (by decide) (by rfl)

def quoteErrText : String :=
  "json: error calling MarshalJSON for type main.T: invalid character \" in string"

def badQuoteState : State :=
  ⟨[⟨LevelInfo, 0, 0, "2006-01-02 15:04:05"⟩],
    [[("f", Value.unserializable quoteErrText)]], [""]⟩

set_option maxRecDepth 1000000 in
/-- C10: the fallback line splices the error text and timestamp into the
template with no JSON escaping, so an error text containing a double quote
makes the emitted fallback line invalid JSON, while a quote-free error
text yields a valid JSON object. -/
theorem C10_fallback_unescaped :
    ((log badQuoteState 0 LevelError "x" probeTime).getSink 0
      = fallbackLine quoteErrText "2026-10-11 12:30:45" ++ "\n") ∧
    isValidJsonObj (fallbackLine quoteErrText "2026-10-11 12:30:45") = false ∧
    ((log badFieldState 0 LevelError "x" probeTime).getSink 0
      = fallbackLine chanErrText "2026-10-11 12:30:45" ++ "\n") ∧
    isValidJsonObj (fallbackLine chanErrText "2026-10-11 12:30:45") = true := by
  refine ⟨by decide, by decide, by decide, by decide⟩

/-! Digit counts of `Nat.repr`, for the timestamp-width facts. -/

theorem toDigitsCore_length_ge_acc (b f n : Nat) (acc : List Char) :
    acc.length ≤ (Nat.toDigitsCore b f n acc).length := by
  induction f generalizing n acc with
  | zero => simp [Nat.toDigitsCore]
  | succ f ih =>
    rw [Nat.toDigitsCore]
    by_cases h : n / b = 0
    · rw [if_pos h]
      simp
    · rw [if_neg h]
      calc acc.length ≤ (Nat.digitChar (n % b) :: acc).length := by simp
        _ ≤ _ := ih _ _

theorem toDigitsCore_length_lower (e : Nat) :
    ∀ (f n : Nat) (acc : List Char), n < f → 10 ^ e ≤ n →
      e + 1 + acc.length ≤ (Nat.toDigitsCore 10 f n acc).length := by
  induction e with
  | zero =>
    intro f n acc hf hn
    match f, hf with
    | f + 1, hf =>
      rw [Nat.toDigitsCore]
      by_cases h : n / 10 = 0
      · rw [if_pos h]
        simp only [List.length_cons]
        omega
      · rw [if_neg h]
        have hm := toDigitsCore_length_ge_acc 10 f (n / 10) (Nat.digitChar (n % 10) :: acc)
        simp only [List.length_cons] at hm
        omega
  | succ e ih =>
    intro f n acc hf hn
    have hge : 10 ≤ n := by
      have h10 : (10 : Nat) ^ 1 ≤ 10 ^ (e + 1) := Nat.pow_le_pow_right (by omega) (by omega)
      simp only [pow_one] at h10
      exact le_trans h10 hn
    match f, hf with
    | f + 1, hf =>
      rw [Nat.toDigitsCore]
      have hdiv : ¬ n / 10 = 0 := by
        intro h0
        have := (Nat.div_eq_zero_iff (by omega)).1 h0
        omega
      rw [if_neg hdiv]
      have hlow : 10 ^ e ≤ n / 10 := by
        rw [Nat.le_div_iff_mul_le (by omega)]
        calc 10 ^ e * 10 = 10 ^ (e + 1) := by ring
          _ ≤ n := hn
      have hfuel : n / 10 < f := by
        have hlt : n / 10 < n := Nat.div_lt_self (by omega) (by omega)
        omega
      have := ih f (n / 10) (Nat.digitChar (n % 10) :: acc) hfuel hlow
      simp only [List.length_cons] at this
      omega

theorem repr_length_lower (e n : Nat) (h : 10 ^ e ≤ n) :
    e + 1 ≤ (Nat.repr n).length := by
  have hl : (Nat.repr n).length = (Nat.toDigitsCore 10 (n + 1) n []).length := rfl
  rw [hl]
  have := toDigitsCore_length_lower e (n + 1) n [] (Nat.lt_succ_self n) h
  simpa using this

theorem repr_length_exact (n e : Nat) (hlo : 10 ^ e ≤ n) (hhi : n < 10 ^ (e + 1)) :
    (Nat.repr n).length = e + 1 :=
  le_antisymm (Nat.repr_length n (e + 1) (by omega) hhi) (repr_length_lower e n hlo)

theorem pad2_length (n : Nat) (h : n < 100) : (pad2 n).length = 2 := by
  have hts : toString n = Nat.repr n := rfl
  rw [pad2]
  by_cases h1 : n < 10
  · rw [if_pos h1, String.length_append, hts]
    rcases Nat.eq_zero_or_pos n with h0 | h0
    · subst h0
      rfl
    · rw [repr_length_exact n 0 (by simpa using h0) (by simpa using h1)]
      rfl
  · rw [if_neg h1, hts, repr_length_exact n 1 (by norm_num; omega) (by norm_num; omega)]

theorem pad4_length (n : Nat) (h : n < 10000) : (pad4 n).length = 4 := by
  have hts : toString n = Nat.repr n := rfl
  rw [pad4]
  by_cases h1 : n < 10
  · rw [if_pos h1, String.length_append, hts]
    rcases Nat.eq_zero_or_pos n with h0 | h0
    · subst h0
      rfl
    · rw [repr_length_exact n 0 (by simpa using h0) (by simpa using h1)]
      rfl
  · by_cases h2 : n < 100
    · rw [if_neg h1, if_pos h2, String.length_append, hts,
        repr_length_exact n 1 (by norm_num; omega) (by norm_num; omega)]
      rfl
    · by_cases h3 : n < 1000
      · rw [if_neg h1, if_neg h2, if_pos h3, String.length_append, hts,
          repr_length_exact n 2 (by norm_num; omega) (by norm_num; omega)]
        rfl
      · rw [if_neg h1, if_neg h2, if_neg h3, hts,
          repr_length_exact n 3 (by norm_num; omega) (by norm_num; omega)]

theorem goFormat_default (t : GoTime) :
    goFormat "2006-01-02 15:04:05" t
      = pad4 t.year ++ "-" ++ pad2 t.month ++ "-" ++ pad2 t.day ++ " "
        ++ pad2 t.hour ++ ":" ++ pad2 t.minute ++ ":" ++ pad2 t.second := by
  have h : goFormat "2006-01-02 15:04:05" t
      = pad4 t.year ++ ("-" ++ (pad2 t.month ++ ("-" ++ (pad2 t.day ++ (" " ++ (pad2 t.hour
          ++ (":" ++ (pad2 t.minute ++ (":" ++ (pad2 t.second ++ "")))))))))) := rfl
  rw [h]
  simp [String.append_assoc]

/-- C6: `New(sink)` yields a logger with threshold `Info`, the given sink,
an empty field set, and the default layout `"2006-01-02 15:04:05"`, which
renders as zero-padded `YYYY-MM-DD HH:MM:SS` (four-digit year, two-digit
month, day, hour, minute, second, 24-hour clock, date and time separated
by a space). -/
theorem C6_New_defaults (σ : State) (out : Nat) :
    ((New σ out).1.getLogger (New σ out).2).level = LevelInfo ∧
    ((New σ out).1.getLogger (New σ out).2).output = out ∧
    ((New σ out).1.getLogger (New σ out).2).timeFormat = "2006-01-02 15:04:05" ∧
    (New σ out).1.fieldsOf (New σ out).2 = [] ∧
    (∀ t : GoTime, goFormat ((New σ out).1.getLogger (New σ out).2).timeFormat t
      = pad4 t.year ++ "-" ++ pad2 t.month ++ "-" ++ pad2 t.day ++ " "
        ++ pad2 t.hour ++ ":" ++ pad2 t.minute ++ ":" ++ pad2 t.second) ∧
    (∀ n : Nat, n < 10000 → (pad4 n).length = 4) ∧
    (∀ n : Nat, n < 100 → (pad2 n).length = 2) := by
  have hg : (New σ out).1.getLogger (New σ out).2
      = ⟨LevelInfo, σ.maps.length, out, "2006-01-02 15:04:05"⟩ := by
    show (New σ out).1.getLogger σ.loggers.length = _
    simp [New, State.getLogger, List.getElem?_concat_length]
  have hm : (New σ out).1.fieldsOf (New σ out).2 = [] := by
    rw [State.fieldsOf, hg]
    show (New σ out).1.getMap σ.maps.length = []
    simp [New, State.getMap, List.getElem?_concat_length]
  refine ⟨by rw [hg], by rw [hg], by rw [hg], hm, ?_, pad4_length, pad2_length⟩
  intro t
  rw [hg]
  exact goFormat_default t

theorem C6_witness :
    ((New initState 0).1.getLogger (New initState 0).2).level = LevelInfo ∧
    (New initState 0).1.fieldsOf (New initState 0).2 = [] ∧
    goFormat ((New initState 0).1.getLogger (New initState 0).2).timeFormat probeTime
      = pad4 2026 ++ "-" ++ pad2 10 ++ "-" ++ pad2 11 ++ " "
        ++ pad2 12 ++ ":" ++ pad2 30 ++ ":" ++ pad2 45 ∧
    (pad4 2026).length = 4 ∧ (pad2 7).length = 2 :=
  ⟨(C6_New_defaults initState 0).1, (C6_New_defaults initState 0).2.2.2.1,
    (C6_New_defaults initState 0).2.2.2.2.1 probeTime,
    (C6_New_defaults initState 0).2.2.2.2.2.1 2026 (by decide),
    (C6_New_defaults initState 0).2.2.2.2.2.2 7 (by decide)⟩

/-- C7: every package-level convenience function forwards to the same
operation on the process-wide default logger; package-level
`AddField`/`AddFields` return a new logger reference and leave the default
instance's field set unchanged. -/
theorem C7_package_forwarders (σ : State) :
    (∀ level, pkgSetLevel σ level = SetLevel σ defaultLogger level) ∧
    (∀ out, pkgSetOutput σ out = SetOutput σ defaultLogger out) ∧
    (∀ format, pkgSetTimeFormat σ format = SetTimeFormat σ defaultLogger format) ∧
    (∀ key value, pkgAddField σ key value = AddField σ defaultLogger key value) ∧
    (∀ F, pkgAddFields σ F = AddFields σ defaultLogger F) ∧
    (∀ msg now, pkgDebug σ msg now = Debug σ defaultLogger msg now) ∧
    (∀ msg now, pkgInfo σ msg now = Info σ defaultLogger msg now) ∧
    (∀ msg now, pkgWarn σ msg now = Warn σ defaultLogger msg now) ∧
    (∀ msg now, pkgError σ msg now = Error σ defaultLogger msg now) ∧
    (∀ msg now, pkgFatal σ msg now = Fatal σ defaultLogger msg now) ∧
    (∀ msg now, pkgPanic σ msg now = Panic σ defaultLogger msg now) ∧
    (σ.okRef defaultLogger →
      (∀ key value, (pkgAddField σ key value).2 ≠ defaultLogger ∧
        (pkgAddField σ key value).1.fieldsOf defaultLogger = σ.fieldsOf defaultLogger) ∧
      (∀ F, (pkgAddFields σ F).2 ≠ defaultLogger ∧
        (pkgAddFields σ F).1.fieldsOf defaultLogger = σ.fieldsOf defaultLogger)) := by
  refine ⟨fun _ => rfl, fun _ => rfl, fun _ => rfl, fun _ _ => rfl, fun _ => rfl,
    fun _ _ => rfl, fun _ _ => rfl, fun _ _ => rfl, fun _ _ => rfl, fun _ _ => rfl,
    fun _ _ => rfl, ?_⟩
  intro hok
  obtain ⟨h1, h2, h3⟩ := hok
  constructor
  · intro key value
    constructor
    · show (AddField σ defaultLogger key value).2 ≠ defaultLogger
      rw [AddField_eq]
      exact Nat.ne_of_gt h1
    · show (AddField σ defaultLogger key value).1.fieldsOf defaultLogger
        = σ.fieldsOf defaultLogger
      rw [AddField_eq]
      exact derive_fieldsOf_old σ defaultLogger defaultLogger _ h1 h2
  · intro F
    constructor
    · show (AddFields σ defaultLogger F).2 ≠ defaultLogger
      rw [AddFields_eq]
      exact Nat.ne_of_gt h1
    · show (AddFields σ defaultLogger F).1.fieldsOf defaultLogger = σ.fieldsOf defaultLogger
      rw [AddFields_eq]
      exact derive_fieldsOf_old σ defaultLogger defaultLogger _ h1 h2

theorem C7_witness :
    (pkgSetLevel startupState 3 = SetLevel startupState defaultLogger 3) ∧
    (pkgDebug startupState "m" probeTime = Debug startupState defaultLogger "m" probeTime) ∧
    (pkgAddField startupState "k" (Value.str "v")).2 ≠ defaultLogger ∧
    (pkgAddField startupState "k" (Value.str "v")).1.fieldsOf defaultLogger
      = startupState.fieldsOf defaultLogger ∧
    (pkgAddFields startupState [("a", Value.int 1)]).2 ≠ defaultLogger ∧
    (pkgAddFields startupState [("a", Value.int 1)]).1.fieldsOf defaultLogger
      = startupState.fieldsOf defaultLogger := by
  obtain ⟨f1, _, _, _, _, f6, _, _, _, _, _, himm⟩ := C7_package_forwarders startupState
  obtain ⟨ha, hb⟩ := himm (by decide)
  exact ⟨f1 3, f6 "m" probeTime, (ha "k" (Value.str "v")).1, (ha "k" (Value.str "v")).2,
    (hb [("a", Value.int 1)]).1, (hb [("a", Value.int 1)]).2⟩

end GoLogger
